import Mathlib

/-!
# Verification of the Lambda HTTP dispatcher (`src/lambda.py`)

A shallow embedding of the single-file Python program: the event normalizer
`_parse_event`, the router `route`, the response builder `_response` and the
entry point `lambda_handler`, together with executable models of the Python
standard-library primitives the program calls (`str.lower`/`upper`,
`str.startswith`, substring containment, `base64.b64decode`,
`bytes.decode("utf-8")`, `str.encode("utf-8")`, `json.loads`, `json.dumps`,
`datetime.isoformat`).

Python dictionaries are embedded as insertion-ordered association lists
(`List (String × α)`); dictionary update keeps the position of the first
insertion of a key and replaces its value, exactly as CPython does.
Machine-level caveats of the model are noted on each definition.
-/

set_option autoImplicit false

namespace Lambda

/-! ## Python dictionaries as insertion-ordered association lists -/

/-- `d[k] = v` on an insertion-ordered dictionary: if `k` is already a key,
its value is replaced in place; otherwise the pair is appended. -/
def dictInsert {α : Type} : List (String × α) → String → α → List (String × α)
  | [], k, v => [(k, v)]
  | kv :: tl, k, v =>
    if kv.1 = k then (k, v) :: tl else kv :: dictInsert tl k v

/-- `d.get(k)`: first entry with the given key (dictionaries built with
`dictInsert` never hold a duplicate key). -/
def pyDictGet {α : Type} : List (String × α) → String → Option α
  | [], _ => none
  | kv :: tl, k => if kv.1 = k then some kv.2 else pyDictGet tl k

/-- `d.get(k, default)`. -/
def pyDictGetD {α : Type} (d : List (String × α)) (k : String) (dflt : α) : α :=
  (pyDictGet d k).getD dflt

/-- `{**a, **b}`: entries of `b` update `a` in insertion order. -/
def dictMerge {α : Type} (a b : List (String × α)) : List (String × α) :=
  b.foldl (fun d kv => dictInsert d kv.1 kv.2) a

/-- The value the key `k` ends up with after inserting every pair of `l`
in order: the last occurrence of `k` in `l` wins. -/
def lastLookup {α : Type} : List (String × α) → String → Option α
  | [], _ => none
  | kv :: tl, k => (lastLookup tl k).or (if kv.1 = k then some kv.2 else none)

/-! ## Python string primitives -/

/-- `s.upper()`. The program only uppercases HTTP method names, which are
ASCII; the model uses ASCII case mapping. -/
def pyUpper (s : String) : String := ⟨s.data.map Char.toUpper⟩

/-- `s.lower()`. The program only lowercases header names, which are ASCII;
the model uses ASCII case mapping. -/
def pyLower (s : String) : String := ⟨s.data.map Char.toLower⟩

/-- Python `a or b` on an optional string: `None` and `""` are falsy. -/
def pyOrS (x : Option String) (y : String) : String :=
  match x with
  | some s => if s = "" then y else s
  | none => y

/-- `s.startswith(p)`. -/
def pyStartswith (s p : String) : Bool := p.data.isPrefixOf s.data

/-- Index of the first occurrence of `sub` in `s` (`s.find(sub)` when it
succeeds). -/
def findSubIdx (s sub : List Char) : Option Nat :=
  match s with
  | [] => if sub = [] then some 0 else none
  | _ :: t => if sub.isPrefixOf s then some 0 else (findSubIdx t sub).map (· + 1)

/-- Python `sub in s` (substring containment). -/
def pyIn (sub s : String) : Bool := (findSubIdx s.data sub.data).isSome

/-- `s.split(sep, 1)[1]`: everything after the first occurrence of `sep`.
The program only evaluates this under a guard that guarantees an occurrence;
the no-occurrence case (an `IndexError` in Python) is mapped to `""` and is
proved unreachable where used. -/
def pySplit1Tail (s sep : String) : String :=
  match findSubIdx s.data sep.data with
  | some i => ⟨s.data.drop (i + sep.data.length)⟩
  | none => ""

/-! ## `str.encode("utf-8")` and `bytes.decode("utf-8")`

Bytes are `List Nat` with every element below 256. Decoding is strict, as in
Python: continuation-byte errors, overlong encodings, surrogates and
out-of-range code points raise `UnicodeDecodeError`. -/

/-- UTF-8 encoding of one unicode scalar value. -/
def utf8EncodeChar (c : Char) : List Nat :=
  let n := c.toNat
  if n < 0x80 then [n]
  else if n < 0x800 then [0xC0 + n / 64, 0x80 + n % 64]
  else if n < 0x10000 then
    [0xE0 + n / 4096, 0x80 + (n / 64) % 64, 0x80 + n % 64]
  else
    [0xF0 + n / 262144, 0x80 + (n / 4096) % 64, 0x80 + (n / 64) % 64,
     0x80 + n % 64]

/-- `s.encode("utf-8")`. -/
def utf8Encode (s : String) : List Nat :=
  (s.data.map utf8EncodeChar).flatten

/-- Is `b` a UTF-8 continuation byte? -/
def isCont (b : Nat) : Bool := 0x80 ≤ b && b < 0xC0

/-- Strict UTF-8 decoding (`bytes.decode("utf-8")`); `none` models
`UnicodeDecodeError`. -/
def utf8DecodeList : List Nat → Option (List Char)
  | [] => some []
  | b :: rest =>
    if b < 0x80 then
      (utf8DecodeList rest).map (fun cs => Char.ofNat b :: cs)
    else if b < 0xC2 then
      none
    else if b < 0xE0 then
      match rest with
      | b2 :: rest2 =>
        if isCont b2 then
          (utf8DecodeList rest2).map
            (fun cs => Char.ofNat ((b - 0xC0) * 64 + (b2 - 0x80)) :: cs)
        else none
      | [] => none
    else if b < 0xF0 then
      match rest with
      | b2 :: b3 :: rest2 =>
        if isCont b2 && isCont b3
            && (b ≠ 0xE0 || 0xA0 ≤ b2)      -- no overlong 3-byte form
            && (b ≠ 0xED || b2 < 0xA0) then -- no surrogates
          (utf8DecodeList rest2).map
            (fun cs =>
              Char.ofNat ((b - 0xE0) * 4096 + (b2 - 0x80) * 64 + (b3 - 0x80))
                :: cs)
        else none
      | _ => none
    else if b < 0xF5 then
      match rest with
      | b2 :: b3 :: b4 :: rest2 =>
        if isCont b2 && isCont b3 && isCont b4
            && (b ≠ 0xF0 || 0x90 ≤ b2)      -- no overlong 4-byte form
            && (b ≠ 0xF4 || b2 < 0x90) then -- not beyond U+10FFFF
          (utf8DecodeList rest2).map
            (fun cs =>
              Char.ofNat ((b - 0xF0) * 262144 + (b2 - 0x80) * 4096
                + (b3 - 0x80) * 64 + (b4 - 0x80)) :: cs)
        else none
      | _ => none
    else none

/-- `bytes.decode("utf-8")` producing a string. -/
def utf8Decode (bs : List Nat) : Option String :=
  (utf8DecodeList bs).map (fun cs => ⟨cs⟩)

/-! ## `base64.b64decode`

`base64.b64decode(s)` on a `str` argument first encodes it as ASCII
(raising `ValueError` on a non-ASCII character), then runs
`binascii.a2b_base64` in non-strict mode: characters outside the alphabet
are skipped, a quad completed by padding ends the data, and a trailing
partial quad raises `binascii.Error`. Errors carry Python's message text
(`str(e)` of the exception). -/

/-- Value of one base64 alphabet character. -/
def b64Val (c : Char) : Option Nat :=
  if 'A' ≤ c && c ≤ 'Z' then some (c.toNat - 'A'.toNat)
  else if 'a' ≤ c && c ≤ 'z' then some (c.toNat - 'a'.toNat + 26)
  else if '0' ≤ c && c ≤ '9' then some (c.toNat - '0'.toNat + 52)
  else if c = '+' then some 62
  else if c = '/' then some 63
  else none

/-- `str(e)` of the `binascii.Error` raised for a quad of length 1. -/
def b64CountErr (n : Nat) : String :=
  "Invalid base64-encoded string: number of data characters (" ++ toString n
    ++ ") cannot be 1 more than a multiple of 4"

/-- `binascii.a2b_base64` in non-strict (legacy) mode. `quadPos` is the
position inside the current 4-character group, `leftchar` the pending bits,
`pads` the padding characters seen since the last data character, `nchars`
the count of data characters, `acc` the output bytes in reverse. -/
def a2bBase64 : List Char → Nat → Nat → Nat → Nat → List Nat →
    Except String (List Nat)
  | [], quadPos, _, _, nchars, acc =>
    if quadPos = 0 then .ok acc.reverse
    else if quadPos = 1 then .error (b64CountErr nchars)
    else .error "Invalid padding"
  | c :: rest, quadPos, leftchar, pads, nchars, acc =>
    if c = '=' then
      -- in legacy mode two padding characters after two data characters
      -- end the string; `pads` is only counted when `quadPos ≥ 2`
      if 2 ≤ quadPos then
        if 4 ≤ quadPos + (pads + 1) then .ok acc.reverse
        else a2bBase64 rest quadPos leftchar (pads + 1) nchars acc
      else a2bBase64 rest quadPos leftchar pads nchars acc
    else
      match b64Val c with
      | none => a2bBase64 rest quadPos leftchar pads nchars acc
      | some v =>
        match quadPos with
        | 0 => a2bBase64 rest 1 v 0 (nchars + 1) acc
        | 1 => a2bBase64 rest 2 (v % 16) 0 (nchars + 1)
            ((leftchar * 4 + v / 16) :: acc)
        | 2 => a2bBase64 rest 3 (v % 4) 0 (nchars + 1)
            ((leftchar * 16 + v / 4) :: acc)
        | _ => a2bBase64 rest 0 0 0 (nchars + 1)
            ((leftchar * 64 + v) :: acc)

/-- `base64.b64decode` on a `str` argument. -/
def b64decode (s : String) : Except String (List Nat) :=
  if s.data.all (fun c => c.toNat < 128) then
    a2bBase64 s.data 0 0 0 0 []
  else
    .error "string argument should contain only ASCII characters"

/-! ## JSON values, `json.dumps`, `json.loads`

JSON objects are insertion-ordered association lists, as CPython dicts are;
a duplicate key in the source text keeps the first position and the last
value. Integers are held exactly; a number with a fraction or exponent (a
Python float) is held by its source text, which `jsonDumps` re-emits — an
approximation of Python's float repr that agrees on canonical spellings and
is never exercised by the routes under verification. -/

inductive JsonVal where
  | null
  | bool (b : Bool)
  | num (n : Int)
  | numRaw (s : String)
  | str (s : String)
  | arr (elems : List JsonVal)
  | obj (fields : List (String × JsonVal))

/-- Lowercase hexadecimal digit. -/
def hexDigit (n : Nat) : Char :=
  if n < 10 then Char.ofNat ('0'.toNat + n) else Char.ofNat ('a'.toNat + n - 10)

/-- Four lowercase hexadecimal digits, as in Python's `\uXXXX` escapes. -/
def hex4 (n : Nat) : String :=
  ⟨[hexDigit (n / 4096 % 16), hexDigit (n / 256 % 16), hexDigit (n / 16 % 16),
    hexDigit (n % 16)]⟩

/-- `json.dumps` escaping of one character with `ensure_ascii=True` (the
default): every character outside `0x20`–`0x7e` is escaped. -/
def jsonEscChar (c : Char) : String :=
  if c = '"' then "\\\""
  else if c = '\\' then "\\\\"
  else if c = '\x08' then "\\b"
  else if c = '\t' then "\\t"
  else if c = '\n' then "\\n"
  else if c = '\x0c' then "\\f"
  else if c = '\r' then "\\r"
  else if c.toNat < 0x20 || 0x7e < c.toNat then
    if c.toNat < 0x10000 then "\\u" ++ hex4 c.toNat
    else
      let n := c.toNat - 0x10000
      "\\u" ++ hex4 (0xD800 + n / 1024) ++ "\\u" ++ hex4 (0xDC00 + n % 1024)
  else String.singleton c

/-- `json.dumps` of a string value. -/
def jsonDumpsStr (s : String) : String :=
  "\"" ++ String.join (s.data.map jsonEscChar) ++ "\""

mutual

/-- `json.dumps` with default arguments: `ensure_ascii=True`, separators
`", "` and `": "`. -/
def jsonDumps : JsonVal → String
  | .null => "null"
  | .bool true => "true"
  | .bool false => "false"
  | .num n => toString n
  | .numRaw s => s
  | .str s => jsonDumpsStr s
  | .arr xs => "[" ++ jsonDumpsArr xs ++ "]"
  | .obj fs => "\x7b" ++ jsonDumpsObj fs ++ "\x7d"

/-- Comma-separated rendering of array elements. -/
def jsonDumpsArr : List JsonVal → String
  | [] => ""
  | [x] => jsonDumps x
  | x :: y :: rest => jsonDumps x ++ ", " ++ jsonDumpsArr (y :: rest)

/-- Comma-separated rendering of object members. -/
def jsonDumpsObj : List (String × JsonVal) → String
  | [] => ""
  | [(k, v)] => jsonDumpsStr k ++ ": " ++ jsonDumps v
  | (k, v) :: kv :: rest =>
    jsonDumpsStr k ++ ": " ++ jsonDumps v ++ ", " ++ jsonDumpsObj (kv :: rest)

end

/-- JSON whitespace (space, tab, newline, carriage return). -/
def skipWs : List Char → List Char
  | [] => []
  | c :: rest =>
    if c = ' ' ∨ c = '\t' ∨ c = '\n' ∨ c = '\r' then skipWs rest else c :: rest

/-- Value of a hexadecimal digit character, by code point: `0`–`9`,
`a`–`f`, `A`–`F`. -/
def hexDigVal (c : Char) : Option Nat :=
  let n := c.toNat
  if 48 ≤ n ∧ n ≤ 57 then some (n - 48)
  else if 97 ≤ n ∧ n ≤ 102 then some (n - 87)
  else if 65 ≤ n ∧ n ≤ 70 then some (n - 55)
  else none

/-- Four hexadecimal digits of a `\uXXXX` escape. -/
def hex4Val : List Char → Option (Nat × List Char)
  | h1 :: h2 :: h3 :: h4 :: more =>
    match hexDigVal h1, hexDigVal h2, hexDigVal h3, hexDigVal h4 with
    | some w1, some w2, some w3, some w4 =>
      some (w1 * 0x1000 + w2 * 0x100 + w3 * 0x10 + w4, more)
    | _, _, _, _ => none
  | _ => none

/-- Body of a JSON string literal, the opening quote already consumed.
A `\uXXXX` high surrogate followed by a low surrogate yields the combined
scalar; a lone surrogate (which Python would keep as a lone surrogate code
unit, unrepresentable in a Lean string) is modelled as a parse failure. -/
def parseStrBody : Nat → List Char → List Char → Option (String × List Char)
  | 0, _, _ => none
  | fuel + 1, cs, acc =>
    match cs with
    | [] => none
    | '"' :: rest => some (⟨acc.reverse⟩, rest)
    | '\\' :: rest =>
      match rest with
      | [] => none
      | e :: rest2 =>
        if e = '"' then parseStrBody fuel rest2 ('"' :: acc)
        else if e = '\\' then parseStrBody fuel rest2 ('\\' :: acc)
        else if e = '/' then parseStrBody fuel rest2 ('/' :: acc)
        else if e = 'b' then parseStrBody fuel rest2 ('\x08' :: acc)
        else if e = 'f' then parseStrBody fuel rest2 ('\x0c' :: acc)
        else if e = 'n' then parseStrBody fuel rest2 ('\n' :: acc)
        else if e = 'r' then parseStrBody fuel rest2 ('\r' :: acc)
        else if e = 't' then parseStrBody fuel rest2 ('\t' :: acc)
        else if e = 'u' then
          match hex4Val rest2 with
          | none => none
          | some (n, rest3) =>
            if 0xD800 ≤ n ∧ n ≤ 0xDBFF then
              match rest3 with
              | '\\' :: 'u' :: rest4 =>
                match hex4Val rest4 with
                | some (m, rest5) =>
                  if 0xDC00 ≤ m ∧ m ≤ 0xDFFF then
                    parseStrBody fuel rest5
                      (Char.ofNat
                        (0x10000 + (n - 0xD800) * 1024 + (m - 0xDC00)) :: acc)
                  else none
                | none => none
              | _ => none
            else if 0xDC00 ≤ n ∧ n ≤ 0xDFFF then none
            else parseStrBody fuel rest3 (Char.ofNat n :: acc)
        else none
    | c :: rest =>
      if c.toNat < 0x20 then none else parseStrBody fuel rest (c :: acc)

/-- Natural number value of a run of decimal digits. -/
def natOfDigits (ds : List Char) : Nat :=
  ds.foldl (fun a c => a * 10 + (c.toNat - '0'.toNat)) 0

/-- A JSON number token, following the grammar of Python's scanner:
`-?(0|[1-9][0-9]*)(\.[0-9]+)?([eE][+-]?[0-9]+)?`. An integer token becomes
`JsonVal.num`; a token with fraction or exponent is kept as its text. -/
def parseNumber (cs : List Char) : Option (JsonVal × List Char) :=
  let sgn : List Char × List Char :=
    match cs with
    | '-' :: t => (['-'], t)
    | _ => ([], cs)
  match sgn.2 with
  | [] => none
  | c :: t =>
    if c.isDigit then
      let ip : List Char × List Char :=
        if c = '0' then (['0'], t)
        else
          let p := t.span (fun d => d.isDigit)
          (c :: p.1, p.2)
      let fp : List Char × List Char :=
        match ip.2 with
        | '.' :: r =>
          let p := r.span (fun d => d.isDigit)
          if p.1 = [] then ([], ip.2) else ('.' :: p.1, p.2)
        | _ => ([], ip.2)
      let ep : List Char × List Char :=
        match fp.2 with
        | e :: r =>
          if e = 'e' ∨ e = 'E' then
            let sg : List Char × List Char :=
              match r with
              | s :: r2 => if s = '+' ∨ s = '-' then ([s], r2) else ([], r)
              | [] => ([], r)
            let p := sg.2.span (fun d => d.isDigit)
            if p.1 = [] then ([], fp.2) else (e :: (sg.1 ++ p.1), p.2)
          else ([], fp.2)
        | [] => ([], fp.2)
      if fp.1 = [] ∧ ep.1 = [] then
        let n : Int := Int.ofNat (natOfDigits ip.1)
        some (.num (if sgn.1 = [] then n else -n), ip.2)
      else
        some (.numRaw ⟨sgn.1 ++ ip.1 ++ fp.1 ++ ep.1⟩, ep.2)
    else none

mutual

/-- One JSON value starting at `cs` (leading whitespace allowed), following
Python's `json.loads` grammar, `NaN`/`Infinity`/`-Infinity` included. -/
def parseValue : Nat → List Char → Option (JsonVal × List Char)
  | 0, _ => none
  | fuel + 1, cs =>
    match skipWs cs with
    | [] => none
    | c :: rest =>
      if c = 'n' then
        match rest with
        | 'u' :: 'l' :: 'l' :: r => some (.null, r)
        | _ => none
      else if c = 't' then
        match rest with
        | 'r' :: 'u' :: 'e' :: r => some (.bool true, r)
        | _ => none
      else if c = 'f' then
        match rest with
        | 'a' :: 'l' :: 's' :: 'e' :: r => some (.bool false, r)
        | _ => none
      else if c = 'N' then
        match rest with
        | 'a' :: 'N' :: r => some (.numRaw "NaN", r)
        | _ => none
      else if c = 'I' then
        match rest with
        | 'n' :: 'f' :: 'i' :: 'n' :: 'i' :: 't' :: 'y' :: r =>
          some (.numRaw "Infinity", r)
        | _ => none
      else if c = '-' then
        match rest with
        | 'I' :: 'n' :: 'f' :: 'i' :: 'n' :: 'i' :: 't' :: 'y' :: r =>
          some (.numRaw "-Infinity", r)
        | _ => parseNumber (c :: rest)
      else if c = '"' then
        (parseStrBody (rest.length + 1) rest []).map
          (fun p => (.str p.1, p.2))
      else if c = '[' then parseArrStart fuel rest
      else if c = '\x7b' then parseObjStart fuel rest
      else parseNumber (c :: rest)

/-- Array body, the `[` already consumed. -/
def parseArrStart : Nat → List Char → Option (JsonVal × List Char)
  | 0, _ => none
  | fuel + 1, cs =>
    match skipWs cs with
    | ']' :: r => some (.arr [], r)
    | cs1 => parseArrRest fuel cs1 []

/-- Elements of a non-empty array, a value required next. -/
def parseArrRest : Nat → List Char → List JsonVal →
    Option (JsonVal × List Char)
  | 0, _, _ => none
  | fuel + 1, cs, acc =>
    match parseValue fuel cs with
    | none => none
    | some (v, rest) =>
      match skipWs rest with
      | ']' :: r => some (.arr (acc ++ [v]), r)
      | ',' :: r => parseArrRest fuel r (acc ++ [v])
      | _ => none

/-- Object body, the `{` already consumed. -/
def parseObjStart : Nat → List Char → Option (JsonVal × List Char)
  | 0, _ => none
  | fuel + 1, cs =>
    match skipWs cs with
    | '\x7d' :: r => some (.obj [], r)
    | cs1 => parseObjRest fuel cs1 []

/-- Members of a non-empty object, a string key required next. -/
def parseObjRest : Nat → List Char → List (String × JsonVal) →
    Option (JsonVal × List Char)
  | 0, _, _ => none
  | fuel + 1, cs, acc =>
    match cs with
    | '"' :: cs1 =>
      match parseStrBody (cs1.length + 1) cs1 [] with
      | none => none
      | some (k, rest1) =>
        match skipWs rest1 with
        | ':' :: rest2 =>
          match parseValue fuel rest2 with
          | none => none
          | some (v, rest3) =>
            let acc2 := dictInsert acc k v
            match skipWs rest3 with
            | '\x7d' :: r => some (.obj acc2, r)
            | ',' :: r => parseObjRest fuel (skipWs r) acc2
            | _ => none
        | _ => none
    | _ => none

end

/-- `json.loads`: one JSON document with nothing but whitespace after it;
`none` models `json.JSONDecodeError`. -/
def jsonParse (s : String) : Option JsonVal :=
  match parseValue (3 * s.data.length + 8) s.data with
  | some (v, rest) => if skipWs rest = [] then some v else none
  | none => none

/-! ## `datetime.now(timezone.utc)` and `isoformat` -/

/-- A UTC wall-clock instant, the result of `datetime.now(timezone.utc)`.
The router is parameterized by the instant it runs at; this is the explicit
state passing for the program's one impure read. -/
structure Datetime where
  year : Nat
  month : Nat
  day : Nat
  hour : Nat
  minute : Nat
  second : Nat
  microsecond : Nat
deriving DecidableEq

/-- Decimal digits of `n`, left-padded with zeros to width `w`. -/
def padNum (w n : Nat) : String :=
  let s := toString n
  ⟨List.replicate (w - s.data.length) '0' ++ s.data⟩

/-- `datetime.isoformat()` of a timezone-aware UTC instant:
`YYYY-MM-DDTHH:MM:SS[.ffffff]+00:00`, the microsecond field omitted when
zero, exactly as CPython renders it. -/
def isoformat (d : Datetime) : String :=
  padNum 4 d.year ++ "-" ++ padNum 2 d.month ++ "-" ++ padNum 2 d.day ++ "T"
    ++ padNum 2 d.hour ++ ":" ++ padNum 2 d.minute ++ ":" ++ padNum 2 d.second
    ++ (if d.microsecond = 0 then "" else "." ++ padNum 6 d.microsecond)
    ++ "+00:00"

/-! ## The incoming event and the canonical request

The Python event is an untyped mapping; the embedding types the fields the
program reads, with `Option` for a key that may be absent. The two gateway
shapes are both representable: shape A populates `requestContext.http.method`
and `rawPath`, shape B populates `httpMethod` and `path`. -/

/-- The `requestContext.http` structure of a shape-A event. -/
structure HttpCtx where
  method : Option String
deriving DecidableEq

/-- The `requestContext` structure of a shape-A event. -/
structure ReqCtx where
  http : Option HttpCtx
deriving DecidableEq

/-- An incoming gateway event, with exactly the keys `_parse_event` reads.
`isBase64Encoded` carries its Python default `False` when the key is
absent. -/
structure Event where
  requestContext : Option ReqCtx
  httpMethod : Option String
  rawPath : Option String
  path : Option String
  headers : Option (List (String × String))
  queryStringParameters : Option (List (String × String))
  body : Option String
  isBase64Encoded : Bool
deriving DecidableEq

/-- The event in which every optional field is absent. -/
def emptyEvent : Event :=
  { requestContext := none, httpMethod := none, rawPath := none, path := none,
    headers := none, queryStringParameters := none, body := none,
    isBase64Encoded := false }

/-- The canonical request tuple returned by `_parse_event`. -/
structure CanonReq where
  method : String
  path : String
  headers : List (String × String)
  query : List (String × String)
  bodyBytes : List Nat
  bodyJson : Option JsonVal

/-- `event.get("requestContext", {}).get("http", {}).get("method")`. -/
def shapeAMethod (e : Event) : Option String :=
  (e.requestContext.bind (fun rc => rc.http)).bind (fun h => h.method)

/-- Method resolution of `_parse_event`:
`shapeA or event.get("httpMethod", "GET")`, then `.upper()`. -/
def resolveMethod (e : Event) : String :=
  pyUpper (pyOrS (shapeAMethod e) (e.httpMethod.getD "GET"))

/-- Path resolution of `_parse_event`:
`event.get("rawPath") or event.get("path") or "/"`. -/
def resolvePath (e : Event) : String :=
  pyOrS e.rawPath (pyOrS e.path "/")

/-- Header normalization of `_parse_event`: a dict comprehension lowercasing
every key of `event.get("headers") or {}`. -/
def normHeaders (e : Event) : List (String × String) :=
  (e.headers.getD []).foldl (fun d kv => dictInsert d (pyLower kv.1) kv.2) []

/-- Query resolution of `_parse_event`:
`event.get("queryStringParameters") or {}`. -/
def resolveQuery (e : Event) : List (String × String) :=
  e.queryStringParameters.getD []

/-- Body byte resolution of `_parse_event`: base64-decode when the flag is
set and a body string is present, else UTF-8 encode the body string (the
`isinstance` branch for a `bytes` body is vacuous in the typed model, where
`body` is a string). An `.error` models an exception propagating out of
`_parse_event`. -/
def resolveBodyBytes (e : Event) : Except String (List Nat) :=
  let bodyRaw := pyOrS e.body ""
  if e.isBase64Encoded ∧ bodyRaw ≠ "" then b64decode bodyRaw
  else .ok (utf8Encode bodyRaw)

/-- `str(e)` of the `UnicodeDecodeError` raised by `bytes.decode("utf-8")`;
the model abbreviates CPython's byte-and-position message. -/
def utf8ErrMsg : String :=
  "'utf-8' codec can't decode: invalid data"

/-- JSON body resolution of `_parse_event`: attempted only when the
`content-type` header contains `application/json` and the bytes are
non-empty; `json.JSONDecodeError` is swallowed to `none`, but a
`UnicodeDecodeError` from `.decode("utf-8")` escapes the `except` clause
and propagates (`.error`). -/
def resolveBodyJson (headers : List (String × String)) (bodyBytes : List Nat) :
    Except String (Option JsonVal) :=
  let ctype := pyDictGetD headers "content-type" ""
  if pyIn "application/json" ctype ∧ bodyBytes ≠ [] then
    match utf8Decode bodyBytes with
    | none => .error utf8ErrMsg
    | some s => .ok (jsonParse s)
  else .ok none

/-- `_parse_event`: normalize a gateway event into the canonical request
tuple. An `.error` models an exception raised to the caller. -/
def parseEvent (e : Event) : Except String CanonReq :=
  match resolveBodyBytes e with
  | .error msg => .error msg
  | .ok bodyBytes =>
    let headers := normHeaders e
    match resolveBodyJson headers bodyBytes with
    | .error msg => .error msg
    | .ok bodyJson =>
      .ok { method := resolveMethod e, path := resolvePath e,
            headers := headers, query := resolveQuery e,
            bodyBytes := bodyBytes, bodyJson := bodyJson }

/-! ## `_response`, `route`, `lambda_handler` -/

/-- The module-level `CORS_HEADERS` dictionary. -/
def CORS_HEADERS : List (String × String) :=
  [("Access-Control-Allow-Origin", "*"),
   ("Access-Control-Allow-Methods", "GET,POST,PUT,PATCH,DELETE,OPTIONS"),
   ("Access-Control-Allow-Headers", "Content-Type,Authorization,X-Requested-With")]

/-- The `body` argument of `_response`: `None`, a string, or a JSON-like
value (the dict literals the handlers pass). -/
inductive PyBody where
  | none
  | str (s : String)
  | json (j : JsonVal)

/-- The response envelope returned to the gateway. -/
structure RespDict where
  statusCode : Nat
  headers : List (String × String)
  body : String
  isBase64Encoded : Bool
deriving DecidableEq

/-- `_response(status, body, headers, is_base64)`: merge the fixed CORS
headers with the handler-supplied ones, render a non-string body with
`json.dumps`, map `None` to `""`. -/
def pyResponse (status : Nat) (body : PyBody)
    (headers : List (String × String)) (is_base64 : Bool) : RespDict :=
  { statusCode := status
    headers := dictMerge CORS_HEADERS headers
    body :=
      match body with
      | .none => ""
      | .str s => s
      | .json j => jsonDumps j
    isBase64Encoded := is_base64 }

/-- A Python `None`-able JSON value as a dict member (`None` dumps as
`null`). -/
def jsonOfOpt : Option JsonVal → JsonVal
  | Option.none => .null
  | some j => j

/-- `route(method, path, query, body_json)`, parameterized by the UTC
instant `now` at which `datetime.now(timezone.utc)` is read. The item
block mirrors the Python control flow: if none of its inner branches
returned, control would fall through to the rules below it (unreachable,
but preserved). -/
def route (now : Datetime) (method path : String)
    (query : List (String × String)) (body_json : Option JsonVal) : RespDict :=
  if method = "GET" ∧ path = "/health" then
    pyResponse 200
      (.json (.obj [("ok", .bool true), ("time", .str (isoformat now))]))
      [] false
  else if method = "GET" ∧ path = "/" then
    pyResponse 200
      (.json (.obj
        [("message", .str "Hello from Lambda webserver 👋"),
         ("paths", .arr [.str "/", .str "/health", .str "/echo",
                         .str "/items/\x7bid\x7d"])]))
      [] false
  else if method = "POST" ∧ path = "/echo" then
    pyResponse 200
      (.json (.obj
        [("received", jsonOfOpt body_json),
         ("note", .str "POST JSON to /echo and I’ll send it back.")]))
      [] false
  else
    let itemsResult : Option RespDict :=
      if pyStartswith path "/items/"
          ∧ (method = "GET" ∨ method = "PUT" ∨ method = "DELETE") then
        let item_id := pySplit1Tail path "/items/"
        if item_id = "" then
          some (pyResponse 400 (.json (.obj [("error", .str "Missing item id")]))
            [] false)
        else if method = "GET" then
          some (pyResponse 200
            (.json (.obj [("id", .str item_id),
                          ("name", .str ("Item " ++ item_id))])) [] false)
        else if method = "PUT" then
          some (pyResponse 200
            (.json (.obj [("updated", .str item_id),
                          ("body", jsonOfOpt body_json)])) [] false)
        else if method = "DELETE" then
          some (pyResponse 204 (.str "") [] false)
        else Option.none
      else Option.none
    match itemsResult with
    | some r => r
    | Option.none =>
      if method = "OPTIONS" then
        pyResponse 204 (.str "") [] false
      else
        pyResponse 404
          (.json (.obj [("error", .str "Not found"),
                        ("method", .str method), ("path", .str path)]))
          [] false

/-- `lambda_handler(event, context)`, parameterized by the UTC instant.
The `try`/`except Exception` boundary turns any fault from normalization
or routing into a 500 whose `detail` is `str(e)`. -/
def lambdaHandler (now : Datetime) (event : Event) : RespDict :=
  match parseEvent event with
  | .ok r => route now r.method r.path r.query r.bodyJson
  | .error msg =>
    pyResponse 500
      (.json (.obj [("error", .str "Internal Server Error"),
                    ("detail", .str msg)]))
      [] false

/-! ## Concrete inputs used by the claim witnesses -/

/-- A fixed UTC instant at which the witness invocations run. -/
def dt0 : Datetime := ⟨2026, 10, 12, 3, 4, 5, 0⟩

/-- The concrete event of the C4 witness: a JSON content type with a body
that is not JSON. -/
def evC4 : Event :=
  { emptyEvent with
    headers := some [("Content-Type", "application/json")],
    body := some "not json" }

/-- The canonical request `_parse_event` produces for `evC4`. -/
def reqC4 : CanonReq :=
  { method := "GET", path := "/",
    headers := [("content-type", "application/json")], query := [],
    bodyBytes := utf8Encode "not json", bodyJson := none }

/-- The event of the C3 counterexample: `isBase64Encoded` is true but the
present body `"a"` is not valid base64 (one data character is one more than
a multiple of four). -/
def evBadB64 : Event :=
  { emptyEvent with isBase64Encoded := true, body := some "a" }

/-! ## Helper lemmas -/

theorem strDataAppend (s t : String) : (s ++ t).data = s.data ++ t.data := rfl

@[simp] theorem pyResponse_isBase64 (s : Nat) (b : PyBody)
    (hs : List (String × String)) (f : Bool) :
    (pyResponse s b hs f).isBase64Encoded = f := rfl

theorem pyStartswith_append (p r : String) : pyStartswith (p ++ r) p = true := by
  unfold pyStartswith
  rw [strDataAppend]
  exact List.isPrefixOf_iff_prefix.mpr (List.prefix_append _ _)

theorem pySplit1Tail_append (p r : String) (hp : p.data ≠ []) :
    pySplit1Tail (p ++ r) p = r := by
  unfold pySplit1Tail
  rcases hq : p.data with _ | ⟨c, t⟩
  · exact absurd hq hp
  · have hdata : (p ++ r).data = c :: (t ++ r.data) := by
      rw [strDataAppend, hq]; rfl
    rw [hdata]
    unfold findSubIdx
    have hpre : (c :: t).isPrefixOf (c :: (t ++ r.data)) = true :=
      List.isPrefixOf_iff_prefix.mpr ⟨r.data, rfl⟩
    rw [if_pos hpre]
    show String.mk ((c :: (t ++ r.data)).drop (0 + (c :: t).length)) = r
    have : (c :: (t ++ r.data)).drop (0 + (c :: t).length)
        = ((c :: t) ++ r.data).drop (c :: t).length := by simp
    rw [this, List.drop_left]

theorem items_ne_health (r : String) : "/items/" ++ r ≠ "/health" := by
  intro he
  have hd : ('/' :: 'i' :: 't' :: 'e' :: 'm' :: 's' :: '/' :: r.data)
      = ['/', 'h', 'e', 'a', 'l', 't', 'h'] := congrArg String.data he
  simp only [List.cons.injEq] at hd
  exact absurd hd.2.1 (by decide)

theorem items_ne_root (r : String) : "/items/" ++ r ≠ "/" := by
  intro he
  have hd : ('/' :: 'i' :: 't' :: 'e' :: 'm' :: 's' :: '/' :: r.data)
      = ['/'] := congrArg String.data he
  simp only [List.cons.injEq] at hd
  exact absurd hd.2 (by simp)

theorem parseEvent_ok_inv (e : Event) (r : CanonReq)
    (h : parseEvent e = .ok r) :
    r.method = resolveMethod e ∧ r.path = resolvePath e
    ∧ r.headers = normHeaders e ∧ r.query = resolveQuery e
    ∧ resolveBodyBytes e = .ok r.bodyBytes
    ∧ resolveBodyJson (normHeaders e) r.bodyBytes = .ok r.bodyJson := by
  unfold parseEvent at h
  cases hb : resolveBodyBytes e with
  | error msg => simp only [hb] at h; exact Except.noConfusion h
  | ok bs =>
    simp only [hb] at h
    cases hj : resolveBodyJson (normHeaders e) bs with
    | error msg => simp only [hj] at h; exact Except.noConfusion h
    | ok bj =>
      simp only [hj] at h
      injection h with h2
      subst h2
      exact ⟨rfl, rfl, rfl, rfl, rfl, hj⟩

/-! ## Claim theorems -/

/-- C5: for every canonical request with method `OPTIONS`, regardless of
path, `route` returns status 204 with empty body (and no earlier route rule
matches: the response is exactly the pre-flight one). -/
theorem claim_C5_options_any_path (now : Datetime) (path : String)
    (q : List (String × String)) (bj : Option JsonVal) :
    route now "OPTIONS" path q bj = pyResponse 204 (.str "") [] false := by
  simp only [route]
  rw [if_neg (by rintro ⟨h, -⟩; exact absurd h (by decide))]
  rw [if_neg (by rintro ⟨h, -⟩; exact absurd h (by decide))]
  rw [if_neg (by rintro ⟨h, -⟩; exact absurd h (by decide))]
  rw [if_neg (show ¬(pyStartswith path "/items/" = true
      ∧ (("OPTIONS" : String) = "GET" ∨ ("OPTIONS" : String) = "PUT"
        ∨ ("OPTIONS" : String) = "DELETE")) by
    rintro ⟨-, h | h | h⟩ <;> exact absurd h (by decide))]
  rfl

/-- C8: `GET /health` returns status 200 with body
`{"ok": true, "time": <isoformat of the UTC instant the handler runs at>}`;
`isoformat` is the embedding of `datetime.isoformat` on an aware UTC
datetime, which is exactly the ISO-8601 rendering. -/
theorem claim_C8_health (now : Datetime) (q : List (String × String))
    (bj : Option JsonVal) :
    route now "GET" "/health" q bj
      = pyResponse 200
          (.json (.obj [("ok", .bool true), ("time", .str (isoformat now))]))
          [] false := rfl

/-- C10: the routing result is independent of the query parameters — at any
fixed clock instant, two canonical requests agreeing on method, path and
parsed body but with arbitrary query mappings get equal responses (so in
particular responses differing at most in the `/health` timestamp across
instants); `route` never reads its query argument. -/
theorem claim_C10_query_independent (now : Datetime) (method path : String)
    (q1 q2 : List (String × String)) (bj : Option JsonVal) :
    route now method path q1 bj = route now method path q2 bj := rfl

/-- C9: every response of the program — every `route` outcome, the 404 miss
included, and the 500 fault path of `lambda_handler` — carries
`isBase64Encoded = false`. -/
theorem claim_C9_never_base64 (now : Datetime) (e : Event)
    (method path : String) (q : List (String × String)) (bj : Option JsonVal) :
    (route now method path q bj).isBase64Encoded = false
      ∧ (lambdaHandler now e).isBase64Encoded = false := by
  have hr : ∀ (m p : String) (q' : List (String × String))
      (b : Option JsonVal), (route now m p q' b).isBase64Encoded = false := by
    intro m p q' b
    simp only [route]
    by_cases h1 : m = "GET" ∧ p = "/health"
    · rw [if_pos h1]; rfl
    rw [if_neg h1]
    by_cases h2 : m = "GET" ∧ p = "/"
    · rw [if_pos h2]; rfl
    rw [if_neg h2]
    by_cases h3 : m = "POST" ∧ p = "/echo"
    · rw [if_pos h3]; rfl
    rw [if_neg h3]
    by_cases h4 : pyStartswith p "/items/" = true
        ∧ (m = "GET" ∨ m = "PUT" ∨ m = "DELETE")
    · rw [if_pos h4]
      by_cases h5 : pySplit1Tail p "/items/" = ""
      · rw [if_pos h5]; rfl
      rw [if_neg h5]
      by_cases h6 : m = "GET"
      · rw [if_pos h6]; rfl
      rw [if_neg h6]
      by_cases h7 : m = "PUT"
      · rw [if_pos h7]; rfl
      rw [if_neg h7]
      by_cases h8 : m = "DELETE"
      · rw [if_pos h8]; rfl
      rw [if_neg h8]
      by_cases h9 : m = "OPTIONS"
      · rw [if_pos h9]; rfl
      rw [if_neg h9]; rfl
    · rw [if_neg h4]
      by_cases h9 : m = "OPTIONS"
      · rw [if_pos h9]; rfl
      rw [if_neg h9]; rfl
  refine ⟨hr method path q bj, ?_⟩
  unfold lambdaHandler
  cases h : parseEvent e with
  | ok r => exact hr r.method r.path r.query r.bodyJson
  | error msg => rfl

/-- C6: `lambda_handler` never propagates a fault: it either returns the
routed response of the normalized request, or — when normalization raises —
the 500 response with the generic message and the short `str(e)` rendering
of the fault. -/
theorem claim_C6_failure_boundary (now : Datetime) (e : Event) :
    (∃ r, parseEvent e = .ok r
        ∧ lambdaHandler now e = route now r.method r.path r.query r.bodyJson)
    ∨ (∃ m, parseEvent e = .error m
        ∧ lambdaHandler now e
            = pyResponse 500
                (.json (.obj [("error", .str "Internal Server Error"),
                              ("detail", .str m)])) [] false) := by
  unfold lambdaHandler
  cases h : parseEvent e with
  | ok r => exact Or.inl ⟨r, rfl, rfl⟩
  | error msg => exact Or.inr ⟨msg, rfl, rfl⟩

/-- C2: the normalizer resolves the method by preferring the shape-A field
nested at `requestContext.http.method` (when present and non-empty, the
Python `or` treating `""` as absent), falling back to the shape-B field
`httpMethod`, falling back to the literal default `"GET"`; the result is
always uppercased, and the canonical request carries exactly this resolved
method. In particular an event with all method fields absent normalizes to
`"GET"`. -/
theorem claim_C2_method_resolution (e : Event) :
    (∀ r, parseEvent e = .ok r → r.method = resolveMethod e)
    ∧ (∀ m, shapeAMethod e = some m → m ≠ "" → resolveMethod e = pyUpper m)
    ∧ ((shapeAMethod e = none ∨ shapeAMethod e = some "") →
        (∀ m, e.httpMethod = some m → resolveMethod e = pyUpper m)
        ∧ (e.httpMethod = none → resolveMethod e = "GET")) := by
  refine ⟨fun r h => (parseEvent_ok_inv e r h).1, ?_, ?_⟩
  · intro m hm hne
    unfold resolveMethod
    rw [hm]
    simp [pyOrS, hne]
  · intro hA
    constructor
    · intro m hm
      unfold resolveMethod
      rcases hA with h | h <;> rw [h, hm] <;> simp [pyOrS]
    · intro hm
      unfold resolveMethod
      rcases hA with h | h <;> rw [h, hm] <;> rfl

/-- C2 witness: the event in which every method field is absent resolves to
method `"GET"`. -/
theorem claim_C2_method_resolution_witness :
    shapeAMethod emptyEvent = none ∧ emptyEvent.httpMethod = none
      ∧ resolveMethod emptyEvent = "GET" :=
  ⟨rfl, rfl, ((claim_C2_method_resolution emptyEvent).2.2 (Or.inl rfl)).2 rfl⟩

/-- C4: the parsed JSON body is absent unless the `content-type` header (as
looked up among the lowercased header keys) contains `application/json` and
the byte body is non-empty; and when parsing is attempted on such an event
but the body fails to decode as JSON, normalization still succeeds and the
parsed body is absent rather than an error. -/
theorem claim_C4_json_body_policy (e : Event) :
    (∀ r, parseEvent e = .ok r →
        ¬(pyIn "application/json" (pyDictGetD r.headers "content-type" "") = true
            ∧ r.bodyBytes ≠ []) →
        r.bodyJson = none)
    ∧ (∀ r s, parseEvent e = .ok r → utf8Decode r.bodyBytes = some s →
        jsonParse s = none → r.bodyJson = none) := by
  constructor
  · intro r h hcond
    have hinv := parseEvent_ok_inv e r h
    have hjson := hinv.2.2.2.2.2
    unfold resolveBodyJson at hjson
    rw [hinv.2.2.1] at hcond
    rw [if_neg hcond] at hjson
    injection hjson with h2
    exact h2.symm
  · intro r s h hdec hparse
    have hinv := parseEvent_ok_inv e r h
    have hjson := hinv.2.2.2.2.2
    unfold resolveBodyJson at hjson
    by_cases hcond : pyIn "application/json"
        (pyDictGetD (normHeaders e) "content-type" "") = true ∧ r.bodyBytes ≠ []
    · rw [if_pos hcond] at hjson
      rw [hdec] at hjson
      injection hjson with h2
      rw [← h2, hparse]
    · rw [if_neg hcond] at hjson
      injection hjson with h2
      exact h2.symm

/-- C4 witness: a JSON content type with the non-JSON body `"not json"`
normalizes successfully with an absent parsed body. -/
theorem claim_C4_json_body_policy_witness :
    parseEvent evC4 = .ok reqC4 ∧ jsonParse "not json" = none
      ∧ reqC4.bodyJson = none :=
  ⟨rfl, rfl, (claim_C4_json_body_policy evC4).2 reqC4 "not json" rfl rfl rfl⟩

theorem pyDictGet_dictInsert {α : Type} (d : List (String × α)) (k : String)
    (v : α) (k' : String) :
    pyDictGet (dictInsert d k v) k'
      = if k' = k then some v else pyDictGet d k' := by
  induction d with
  | nil =>
    by_cases h : k' = k
    · simp [dictInsert, pyDictGet, h]
    · simp [dictInsert, pyDictGet, h, Ne.symm h]
  | cons hd tl ih =>
    by_cases h : hd.1 = k
    · by_cases h2 : k' = k
      · simp_all [dictInsert, pyDictGet]
      · simp_all [dictInsert, pyDictGet, Ne.symm h2]
    · by_cases h2 : hd.1 = k'
      · have hkk : ¬(k' = k) := fun he => h (by rw [h2, he])
        simp [dictInsert, pyDictGet, h, h2, hkk]
      · simp [dictInsert, pyDictGet, h, h2, ih]

theorem pyDictGet_dictMerge {α : Type} (a b : List (String × α)) (k : String) :
    pyDictGet (dictMerge a b) k = (lastLookup b k).or (pyDictGet a k) := by
  induction b generalizing a with
  | nil => rfl
  | cons kv tl ih =>
    have h1 : dictMerge a (kv :: tl) = dictMerge (dictInsert a kv.1 kv.2) tl :=
      rfl
    rw [h1, ih, pyDictGet_dictInsert]
    show _ = ((lastLookup tl k).or
      (if kv.1 = k then some kv.2 else none)).or (pyDictGet a k)
    rw [Option.or_assoc]
    congr 1
    by_cases h : k = kv.1
    · simp [h]
    · simp [h, Ne.symm h]

/-- C7: every response built by `_response` carries each of the three fixed
cross-origin headers, with the base value when the handler supplies no
override and with the handler's value when it supplies one (handler headers
override base entries of the same key). -/
theorem claim_C7_cors_always_present (status : Nat) (body : PyBody)
    (hs : List (String × String)) (b64 : Bool) (k v0 : String)
    (hmem : (k, v0) ∈ CORS_HEADERS) :
    pyDictGet (pyResponse status body hs b64).headers k
      = some ((lastLookup hs k).getD v0) := by
  have hbase : pyDictGet CORS_HEADERS k = some v0 := by
    simp only [CORS_HEADERS, List.mem_cons, List.mem_singleton,
      List.not_mem_nil, or_false, Prod.mk.injEq] at hmem
    rcases hmem with ⟨h1, h2⟩ | ⟨h1, h2⟩ | ⟨h1, h2⟩ <;> subst h1 <;> subst h2 <;>
      rfl
  show pyDictGet (dictMerge CORS_HEADERS hs) k = _
  rw [pyDictGet_dictMerge, hbase]
  cases hl : lastLookup hs k <;> rfl

/-- C7 witness: with no handler headers the `Allow-Origin` base entry is
present with its base value, and a handler-supplied `Allow-Origin` entry
overrides it. -/
theorem claim_C7_cors_always_present_witness :
    pyDictGet (pyResponse 200 .none [] false).headers
        "Access-Control-Allow-Origin" = some "*"
    ∧ pyDictGet
        (pyResponse 200 .none [("Access-Control-Allow-Origin", "https://x")]
          false).headers "Access-Control-Allow-Origin" = some "https://x" :=
  ⟨claim_C7_cors_always_present 200 .none [] false
      "Access-Control-Allow-Origin" "*" (by decide),
   claim_C7_cors_always_present 200 .none
      [("Access-Control-Allow-Origin", "https://x")] false
      "Access-Control-Allow-Origin" "*" (by decide)⟩

/-- C1: for every canonical request whose path is the literal `/items/`
prefix followed by a remainder `rest` and whose method is `GET`, `PUT` or
`DELETE`, `route` extracts `rest` as the item id and returns: 400
`Missing item id` when the id is empty; 200 with id and synthesized name on
`GET`; 200 with the id and the parsed JSON body on `PUT`; 204 with empty
body on `DELETE`. -/
theorem claim_C1_items_routing (now : Datetime) (q : List (String × String))
    (bj : Option JsonVal) (rest method : String)
    (hm : method = "GET" ∨ method = "PUT" ∨ method = "DELETE") :
    (rest = "" →
        route now method ("/items/" ++ rest) q bj
          = pyResponse 400
              (.json (.obj [("error", .str "Missing item id")])) [] false)
    ∧ (rest ≠ "" → method = "GET" →
        route now method ("/items/" ++ rest) q bj
          = pyResponse 200
              (.json (.obj [("id", .str rest),
                            ("name", .str ("Item " ++ rest))])) [] false)
    ∧ (rest ≠ "" → method = "PUT" →
        route now method ("/items/" ++ rest) q bj
          = pyResponse 200
              (.json (.obj [("updated", .str rest),
                            ("body", jsonOfOpt bj)])) [] false)
    ∧ (rest ≠ "" → method = "DELETE" →
        route now method ("/items/" ++ rest) q bj
          = pyResponse 204 (.str "") [] false) := by
  have hne1 : ¬(method = "GET" ∧ "/items/" ++ rest = "/health") :=
    fun h => items_ne_health rest h.2
  have hne2 : ¬(method = "GET" ∧ "/items/" ++ rest = "/") :=
    fun h => items_ne_root rest h.2
  have hne3 : ¬(method = "POST" ∧ "/items/" ++ rest = "/echo") := by
    rintro ⟨hp, -⟩
    rcases hm with h | h | h <;> (rw [h] at hp; exact absurd hp (by decide))
  have hguard : pyStartswith ("/items/" ++ rest) "/items/" = true
      ∧ (method = "GET" ∨ method = "PUT" ∨ method = "DELETE") :=
    ⟨pyStartswith_append _ _, hm⟩
  have hsplit : pySplit1Tail ("/items/" ++ rest) "/items/" = rest :=
    pySplit1Tail_append _ _ (by decide)
  refine ⟨?_, ?_, ?_, ?_⟩
  · intro hempty
    simp only [route]
    rw [if_neg hne1, if_neg hne2, if_neg hne3, if_pos hguard, hsplit,
      if_pos hempty]
  · intro hrest hG
    simp only [route]
    rw [if_neg hne1, if_neg hne2, if_neg hne3, if_pos hguard, hsplit,
      if_neg hrest, if_pos hG]
  · intro hrest hP
    simp only [route]
    rw [if_neg hne1, if_neg hne2, if_neg hne3, if_pos hguard, hsplit,
      if_neg hrest, if_neg (show ¬method = "GET" by rw [hP]; decide),
      if_pos hP]
  · intro hrest hD
    simp only [route]
    rw [if_neg hne1, if_neg hne2, if_neg hne3, if_pos hguard, hsplit,
      if_neg hrest, if_neg (show ¬method = "GET" by rw [hD]; decide),
      if_neg (show ¬method = "PUT" by rw [hD]; decide), if_pos hD]

/-- C1 witness: `GET /items/42` returns 200 with the synthesized item, and
`DELETE /items/7` returns 204 with empty body. -/
theorem claim_C1_items_routing_witness :
    route dt0 "GET" "/items/42" [] none
      = pyResponse 200
          (.json (.obj [("id", .str "42"), ("name", .str "Item 42")])) [] false
    ∧ route dt0 "DELETE" "/items/7" [] none
      = pyResponse 204 (.str "") [] false :=
  ⟨(claim_C1_items_routing dt0 [] none "42" "GET" (Or.inl rfl)).2.1
      (by decide) rfl,
   (claim_C1_items_routing dt0 [] none "7" "DELETE"
      (Or.inr (Or.inr rfl))).2.2.2 (by decide) rfl⟩

/-- C3 counterexample: on a malformed-but-present field — a body that is
not valid base64 under `isBase64Encoded: true` — `_parse_event` does raise
to its caller (`base64.b64decode` raises `binascii.Error`), refuting the
claim that the normalizer raises no failure for malformed present
fields. -/
theorem claim_C3_counterexample :
    parseEvent evBadB64 = .error (b64CountErr 1) := rfl

theorem resolveBodyJson_error_msg (hs : List (String × String))
    (bs : List Nat) (m : String) (h : resolveBodyJson hs bs = .error m) :
    m = utf8ErrMsg := by
  unfold resolveBodyJson at h
  split at h
  · have h' : (if pyIn "application/json" (pyDictGetD hs "content-type" "")
          = true ∧ bs ≠ []
        then (Except.error utf8ErrMsg : Except String (Option JsonVal))
        else Except.ok none) = Except.error m := h
    split at h'
    · injection h' with h2; exact h2.symm
    · exact Except.noConfusion h'
  · rename_i s heq
    have h' : (if pyIn "application/json" (pyDictGetD hs "content-type" "")
          = true ∧ bs ≠ []
        then (Except.ok (jsonParse s) : Except String (Option JsonVal))
        else Except.ok none) = Except.error m := h
    split at h'
    · exact Except.noConfusion h'
    · exact Except.noConfusion h'

/-- C3 amended: the normalizer resolves missing optional fields to defaults
and swallows JSON parse failures, but it can raise to its caller on
malformed present fields — and it does so in exactly two ways: a failing
`base64.b64decode` of the body, or a failing UTF-8 decode of the body bytes
under a JSON content type. -/
theorem claim_C3_normalizer_failures (e : Event) :
    (∃ r, parseEvent e = .ok r)
    ∨ (∃ m, parseEvent e = .error m
        ∧ (resolveBodyBytes e = .error m
           ∨ (∃ bs, resolveBodyBytes e = .ok bs
               ∧ resolveBodyJson (normHeaders e) bs = .error m
               ∧ m = utf8ErrMsg))) := by
  cases hb : resolveBodyBytes e with
  | error msg =>
    have hred : parseEvent e = .error msg := by unfold parseEvent; rw [hb]
    exact Or.inr ⟨msg, hred, Or.inl rfl⟩
  | ok bs =>
    have hred : parseEvent e
        = (match resolveBodyJson (normHeaders e) bs with
           | .error msg => (.error msg : Except String CanonReq)
           | .ok bodyJson =>
             .ok { method := resolveMethod e, path := resolvePath e,
                   headers := normHeaders e, query := resolveQuery e,
                   bodyBytes := bs, bodyJson := bodyJson }) := by
      unfold parseEvent; rw [hb]
    cases hj : resolveBodyJson (normHeaders e) bs with
    | error msg =>
      rw [hj] at hred
      exact Or.inr ⟨msg, hred,
        Or.inr ⟨bs, rfl, hj, resolveBodyJson_error_msg _ _ _ hj⟩⟩
    | ok bj =>
      rw [hj] at hred
      exact Or.inl ⟨_, hred⟩

end Lambda
